import Mathlib

set_option autoImplicit false

/-!
Shallow embedding of the SHA Connect outreach application (`src/app.py`):
the JSON record store (`save_df_to_file` / `load_df_from_file`), the
translation resolver (`safe_translate` with its `custom_translations`
dictionary), the Twilio messaging gateway (`safe_send_sms`,
`safe_make_call`, `get_twilio_client`), the outbox manager
(`add_to_outbox`, `process_outbox`), and the page-level state
transitions (partners, feedback, reminders, dashboard, outbox pages).
External collaborators (Twilio client, googletrans, the wall clock) are
modelled as oracles carried in environment records.
-/

namespace SHAApp

/-! ## Record store

A persisted record is a flat mapping from column names to scalar values;
we model scalars as strings (pandas `NaN` for a value missing inside an
existing column is abstracted as `""`, the same default the code uses to
backfill entirely missing columns).  A `DataFrame` is an ordered column
list plus an ordered row list. -/

abbrev Record := List (String × String)

structure DataFrame where
  cols : List String
  rows : List Record
deriving DecidableEq

/-- Value of column `c` in record `r` (missing → `""`). -/
def lookupD (r : Record) (c : String) : String :=
  (r.lookup c).getD ""

/-- Accumulate the keys of one record, skipping keys already seen. -/
def addKeys (acc : List String) (r : Record) : List String :=
  r.foldl (fun acc2 kv => if kv.1 ∈ acc2 then acc2 else acc2 ++ [kv.1]) acc

/-- Column set of `pd.DataFrame(records)`: union of the records' keys in
order of first appearance. -/
def unionKeys (recs : List Record) : List String :=
  recs.foldl addKeys []

/-- `pd.read_json(path, orient="records")` / `pd.DataFrame(records)` on a
JSON array of flat records. -/
def read_json_records (recs : List Record) : DataFrame :=
  ⟨unionKeys recs, recs⟩

/-- The column-backfill loop of `load_df_from_file` followed by the
`df[columns]` selection: for each requested column, an existing column
keeps its per-row value and a freshly added column is `""` everywhere. -/
def ensureAndSelect (df : DataFrame) (columns : List String) : DataFrame :=
  ⟨columns,
   df.rows.map (fun r =>
     columns.map (fun c => (c, if c ∈ df.cols then lookupD r c else "")))⟩

/-- What the file system presents to `load_df_from_file`:
the file is absent; `pd.read_json` succeeds with some DataFrame;
`pd.read_json` raises but `json.load` + `pd.DataFrame` succeeds;
or both parses raise. -/
inductive FileState where
  | absent
  | structuredOk (df : DataFrame)
  | rawOnly (recs : List Record)
  | unreadable
deriving DecidableEq

/-- `load_df_from_file(path, columns)` (src/app.py lines 69-95).
`columns = []` plays the role of Python's falsy `columns=None`. -/
def load_df_from_file (src : FileState) (columns : List String) : DataFrame :=
  match src with
  | .absent => if columns ≠ [] then ⟨columns, []⟩ else ⟨[], []⟩
  | .structuredOk df => if columns ≠ [] then ensureAndSelect df columns else df
  | .rawOnly recs =>
      let df := read_json_records recs
      if columns ≠ [] then ensureAndSelect df columns else df
  | .unreadable => ⟨[], []⟩

/-- `save_df_to_file(df, path)` (src/app.py lines 60-67): both the
`to_json(orient="records")` path and the `json.dump(df.to_dict(orient="records"))`
fallback serialize the frame as one JSON array whose records carry exactly
the frame's columns, in column order. -/
def save_df_to_file (df : DataFrame) : List Record :=
  df.rows.map (fun r => df.cols.map (fun c => (c, lookupD r c)))

/-- File state after `save_df_to_file`: a well-formed JSON array of
records, which `pd.read_json` parses back. -/
def fileAfterSave (df : DataFrame) : FileState :=
  .structuredOk (read_json_records (save_df_to_file df))

/-! ## Translation resolver -/

def luo_translations : List (String × String) :=
  [("What is SHA?",
    "SHA en Social Health Authority, ma orit gi dhok yi mondo giko gi bedo mag dhok."),
   ("How can I register for SHA?",
    "Inyalo registr kendo e health center maduong\x27 gi e SHA portal."),
   ("Which services are covered?",
    "SHA en giko mag preventive care, maternal care, kod treatments ma nyaka."),
   ("Thank you for your feedback!", "Awuoyo gi nyalo walo!")]

def luhya_translations : List (String × String) :=
  [("What is SHA?", "SHA ni Social Health Authority, ebuya amagara netaweire."),
   ("How can I register for SHA?", "Olwikhilire kuhealth center oba e SHA portal."),
   ("Which services are covered?",
    "SHA ibuyire preventive care, maternal care, ne essential treatments."),
   ("Thank you for your feedback!", "Webale muno okhu")]

def custom_translations : List (String × List (String × String)) :=
  [("Luo", luo_translations), ("Luhya", luhya_translations)]

/-- The googletrans handle: `none` models `GTTranslator = None` (library
absent); `some f` models an instantiated translator whose
`translate(text, dest="sw").text` call either returns a translation or
raises (`Except.error`). -/
structure TransEnv where
  gt : Option (String → Except String String)

/-- `safe_translate(text, lang)` (src/app.py lines 161-184). -/
def safe_translate (tenv : TransEnv) (text lang : String) : String :=
  if text = "" then text
  else if lang = "Luo" ∨ lang = "Luhya" then
    (((custom_translations.lookup lang).getD []).lookup text).getD text
  else if lang = "English" then text
  else if lang = "Swahili" then
    match tenv.gt with
    | some f =>
        match f text with
        | .ok t => t
        | .error _ => text
    | none => text
  else text

/-! ## Messaging gateway -/

/-- An instantiated Twilio REST client: `messages.create(body, from_, to)`
and `calls.create(twiml, from_, to)`, each returning a provider sid or
raising. -/
structure TwilioAccount where
  createMessage : String → String → String → Except String String
  createCall : String → String → String → Except String String

/-- Credential sources: Streamlit secrets (present only when all three of
account_sid, auth_token, from_number exist) and the three environment
variables. -/
structure TwilioConfig where
  secrets : Option (String × String × String)
  envSid : Option String
  envToken : Option String
  envFrom : Option String

structure MsgEnv where
  cfg : TwilioConfig
  /-- `TwilioClient is not None`, i.e. the twilio library imported. -/
  libPresent : Bool
  /-- Result of `TwilioClient(sid, token)`: `none` models a raised
  constructor. -/
  buildClient : Option TwilioAccount
  /-- `datetime.datetime.now().strftime(...)` for this interaction. -/
  now : String

/-- `twilio_configured()` (src/app.py lines 198-205). -/
def twilio_configured (env : MsgEnv) : Bool :=
  env.cfg.secrets.isSome ||
    (env.cfg.envSid.isSome && env.cfg.envToken.isSome && env.cfg.envFrom.isSome)

/-- `get_twilio_client()` (src/app.py lines 207-221). -/
def get_twilio_client (env : MsgEnv) : Option TwilioAccount :=
  if twilio_configured env then
    if env.libPresent then env.buildClient else none
  else none

/-- The `from_number` each send helper reads from secrets or environment. -/
def from_number (env : MsgEnv) : String :=
  match env.cfg.secrets with
  | some s => s.2.2
  | none => env.cfg.envFrom.getD ""

/-- `safe_send_sms(to_number, body)` (src/app.py lines 239-248). -/
def safe_send_sms (env : MsgEnv) (to_number body : String) : Bool × String :=
  match get_twilio_client env with
  | none => (false, "Twilio not configured or library missing.")
  | some client =>
      match client.createMessage body (from_number env) to_number with
      | .ok sid => (true, sid)
      | .error e => (false, e)

/-- `safe_make_call(to_number, text_to_say)` (src/app.py lines 250-259). -/
def safe_make_call (env : MsgEnv) (to_number text_to_say : String) : Bool × String :=
  match get_twilio_client env with
  | none => (false, "Twilio not configured or library missing.")
  | some client =>
      match client.createCall
          ("<Response><Say>" ++ text_to_say ++ "</Say></Response>")
          (from_number env) to_number with
      | .ok sid => (true, sid)
      | .error e => (false, e)

/-! ## Outbox manager

The outbox DataFrame is modelled as a list of rows keyed by their pandas
index label (`Nat`); `process_outbox` iterates over a frozen copy of the
table, mutating the live table by label (`.at[idx, "Attempts"]`,
`.drop(idx)`).  Labels are unique in every table the app builds
(`ignore_index=True` on concat, default RangeIndex on load). -/

structure OutboxEntry where
  recipient : String
  message : String
  language : String
  dateCreated : String
  type : String
  attempts : Nat
deriving DecidableEq

structure LogEntry where
  recipient : String
  message : String
  language : String
  dateSent : String
  type : String
  status : String
deriving DecidableEq

abbrev Outbox := List (Nat × OutboxEntry)

/-- The in-memory state `process_outbox` reads and writes:
`st.session_state.outbox_df` and `st.session_state.message_logs`. -/
structure OutboxState where
  outbox : Outbox
  logs : List LogEntry
deriving DecidableEq

/-- Dispatch of one outbox row: `safe_send_sms` when `Type == "sms"`,
else `safe_make_call` (src/app.py lines 292-295). -/
def dispatchEntry (env : MsgEnv) (e : OutboxEntry) : Bool × String :=
  if e.type = "sms" then safe_send_sms env e.recipient e.message
  else safe_make_call env e.recipient e.message

/-- `st.session_state.outbox_df.at[idx, "Attempts"] = v`: update the
Attempts cell of the row labelled `idx`. -/
def setAttempts (ob : Outbox) (idx v : Nat) : Outbox :=
  ob.map (fun p => if p.1 = idx then (p.1, { p.2 with attempts := v }) else p)

/-- `st.session_state.outbox_df.drop(idx)`: remove the row labelled `idx`. -/
def dropRow (ob : Outbox) (idx : Nat) : Outbox :=
  ob.filter (fun p => p.1 ≠ idx)

/-- The message-log row appended on a successful outbox dispatch
(src/app.py lines 300-307). -/
def sentRow (env : MsgEnv) (e : OutboxEntry) : LogEntry :=
  ⟨e.recipient, e.message, e.language, env.now, e.type, "Sent"⟩

/-- The `for idx, row in st.session_state.outbox_df.copy().iterrows()`
loop body of `process_outbox` (src/app.py lines 283-313), recursing over
the frozen copy while threading the live state. -/
def processLoop (env : MsgEnv) (maxAttempts : Nat) :
    List (Nat × OutboxEntry) → OutboxState → OutboxState × List (Nat × Bool × String)
  | [], st => (st, [])
  | (idx, row) :: rest, st =>
      if maxAttempts ≤ row.attempts then
        let r := processLoop env maxAttempts rest st
        (r.1, (idx, false, "max attempts reached") :: r.2)
      else
        let d := dispatchEntry env row
        let ob1 := setAttempts st.outbox idx (row.attempts + 1)
        if d.1 then
          let r := processLoop env maxAttempts rest
            ⟨dropRow ob1 idx, st.logs ++ [sentRow env row]⟩
          (r.1, (idx, true, d.2) :: r.2)
        else
          let r := processLoop env maxAttempts rest ⟨ob1, st.logs⟩
          (r.1, (idx, false, d.2) :: r.2)

/-- `process_outbox(max_attempts=3)` (src/app.py lines 277-317): early
return on an empty outbox, otherwise the sweep over the frozen copy.
Persistence of the two tables is a file write of the returned state. -/
def process_outbox (env : MsgEnv) (maxAttempts : Nat) (st : OutboxState) :
    OutboxState × List (Nat × Bool × String) :=
  if st.outbox = [] then (st, [])
  else processLoop env maxAttempts st.outbox st

/-- Net effect of one drain pass on a single row keyed by a label that no
other row shares: kept untouched when exhausted, removed on success, kept
with incremented Attempts on failure. -/
def entryStep (env : MsgEnv) (maxAttempts : Nat) (p : Nat × OutboxEntry) :
    Option (Nat × OutboxEntry) :=
  if maxAttempts ≤ p.2.attempts then some p
  else if (dispatchEntry env p.2).1 then none
  else some (p.1, { p.2 with attempts := p.2.attempts + 1 })

/-- Message-log row contributed by one row during a drain pass. -/
def entryLog (env : MsgEnv) (maxAttempts : Nat) (p : Nat × OutboxEntry) :
    Option LogEntry :=
  if maxAttempts ≤ p.2.attempts then none
  else if (dispatchEntry env p.2).1 then some (sentRow env p.2) else none

/-- Result triple recorded for one row during a drain pass. -/
def entryRes (env : MsgEnv) (maxAttempts : Nat) (p : Nat × OutboxEntry) :
    Nat × Bool × String :=
  if maxAttempts ≤ p.2.attempts then (p.1, false, "max attempts reached")
  else (p.1, dispatchEntry env p.2)

/-! ## Application state and page operations -/

structure Partner where
  name : String
  role : String
  language : String
  contact : String
  campaignAssigned : String
deriving DecidableEq

structure FeedbackEntry where
  name : String
  message : String
  language : String
  dateSubmitted : String
deriving DecidableEq

structure Reminder where
  task : String
  dueDate : String
  assignedTo : String
  status : String
deriving DecidableEq

/-- The five `st.session_state` tables (src/app.py lines 125-138). -/
structure AppState where
  partners : List Partner
  message_logs : List LogEntry
  feedback : List FeedbackEntry
  reminders : List Reminder
  outbox : Outbox
deriving DecidableEq

/-- `add_to_outbox(recipient, message, language, msg_type)`
(src/app.py lines 264-275): `pd.concat(..., ignore_index=True)` relabels
all rows `0..n`. -/
def add_to_outbox (env : MsgEnv) (st : AppState)
    (recipient message language msg_type : String) : AppState :=
  let row : OutboxEntry := ⟨recipient, message, language, env.now, msg_type, 0⟩
  { st with outbox := (st.outbox.map Prod.snd ++ [row]).enum }

/-- The state-mutating button handlers of the app's pages. -/
inductive PageOp where
  | addPartner (name role language contact campaign : String)
  | sendNow (recipient text msgLang msgType : String)
  | submitFeedback (name message language : String)
  | addReminder (task due assignee : String)
  | markCompleted (task : String)
  | processOutboxOp (maxAttempts : Nat)
  | persistAll
deriving DecidableEq

/-- The "Send Now" handler of the Multilingual Messages page
(src/app.py lines 399-437): translate, attempt live dispatch when Twilio
is configured and the library is present, log on success, enqueue to the
outbox on failure. -/
def sendNowStep (env : MsgEnv) (tenv : TransEnv) (st : AppState)
    (recipient text msgLang msgType : String) : AppState :=
  let translated := safe_translate tenv text msgLang
  let d :=
    if twilio_configured env && env.libPresent then
      if msgType = "sms" then safe_send_sms env recipient translated
      else safe_make_call env recipient translated
    else (false, "Twilio not configured")
  if d.1 then
    { st with message_logs :=
        st.message_logs ++ [⟨recipient, translated, msgLang, env.now, msgType, "Sent"⟩] }
  else
    add_to_outbox env st recipient translated msgLang msgType

/-- One user-triggered page action applied to the in-memory tables
(each handler also persists the tables it touched; persistence is a pure
file write of the state shown here). -/
def applyOp (env : MsgEnv) (tenv : TransEnv) (st : AppState) : PageOp → AppState
  | .addPartner n r l c cg =>
      { st with partners := st.partners ++ [⟨n, r, l, c, cg⟩] }
  | .sendNow recipient text msgLang msgType =>
      sendNowStep env tenv st recipient text msgLang msgType
  | .submitFeedback n m l =>
      { st with feedback := st.feedback ++ [⟨n, m, l, env.now⟩] }
  | .addReminder task due assignee =>
      { st with reminders := st.reminders ++ [⟨task, due, assignee, "Pending"⟩] }
  | .markCompleted task =>
      { st with reminders := st.reminders.map (fun r =>
          if r.task = task then { r with status := "Completed" } else r) }
  | .processOutboxOp maxAttempts =>
      let r := process_outbox env maxAttempts ⟨st.outbox, st.message_logs⟩
      { st with outbox := r.1.outbox, message_logs := r.1.logs }
  | .persistAll => st

/-! ## C6, C7: translation resolver -/

/-- C6: `safe_translate` never raises (it is a total function); English is
the identity; any language outside {English, Swahili, Luo, Luhya} returns
the text unchanged; and the Swahili path degrades to identity both when
the googletrans handle is absent and when its call raises. -/
theorem safe_translate_identity_laws (tenv : TransEnv) (text lang : String) :
    safe_translate tenv text "English" = text
    ∧ (lang ≠ "English" → lang ≠ "Swahili" → lang ≠ "Luo" → lang ≠ "Luhya" →
        safe_translate tenv text lang = text)
    ∧ (tenv.gt = none → safe_translate tenv text "Swahili" = text)
    ∧ (∀ f e, tenv.gt = some f → f text = .error e →
        safe_translate tenv text "Swahili" = text) := by
  refine ⟨?_, ?_, ?_, ?_⟩
  · by_cases h : text = "" <;> simp [safe_translate, h]
  · intro h1 h2 h3 h4
    by_cases h : text = "" <;> simp [safe_translate, h, h1, h2, h3, h4]
  · intro hgt
    by_cases h : text = "" <;> simp [safe_translate, h, hgt]
  · intro f e hgt hf
    by_cases h : text = "" <;> simp [safe_translate, h, hgt, hf]

/-- Closed instance of `safe_translate_identity_laws`. -/
theorem safe_translate_identity_laws_witness :
    safe_translate ⟨none⟩ "hello" "English" = "hello"
    ∧ (("French" : String) ≠ "English" → ("French" : String) ≠ "Swahili" →
        ("French" : String) ≠ "Luo" → ("French" : String) ≠ "Luhya" →
        safe_translate ⟨none⟩ "hello" "French" = "hello")
    ∧ ((⟨none⟩ : TransEnv).gt = none → safe_translate ⟨none⟩ "hello" "Swahili" = "hello")
    ∧ (∀ f e, (⟨none⟩ : TransEnv).gt = some f → f "hello" = .error e →
        safe_translate ⟨none⟩ "hello" "Swahili" = "hello") :=
  safe_translate_identity_laws ⟨none⟩ "hello" "French"

/-- C7: for the dictionary-backed language Luo, `safe_translate` is an
exact-match lookup in the static phrase table: the sample phrase maps to
its fixed Luo string, and any text with no dictionary entry is returned
unchanged (no fuzzy or partial matching). -/
theorem safe_translate_luo_exact (tenv : TransEnv) :
    safe_translate tenv "What is SHA?" "Luo" =
      "SHA en Social Health Authority, ma orit gi dhok yi mondo giko gi bedo mag dhok."
    ∧ (∀ text, luo_translations.lookup text = none →
        safe_translate tenv text "Luo" = text)
    ∧ safe_translate tenv "unknown phrase" "Luo" = "unknown phrase" := by
  refine ⟨?_, ?_, ?_⟩
  · simp [safe_translate, custom_translations, luo_translations, List.lookup]
  · intro text h
    by_cases ht : text = ""
    · simp [safe_translate, ht]
    · have hd : ((custom_translations.lookup "Luo").getD []).lookup text = none := by
        have he : (custom_translations.lookup "Luo").getD [] = luo_translations := rfl
        rw [he, h]
      simp [safe_translate, ht, hd]
  · simp [safe_translate, custom_translations, luo_translations, List.lookup]

/-- Closed instance of `safe_translate_luo_exact`. -/
theorem safe_translate_luo_exact_witness :
    safe_translate ⟨none⟩ "What is SHA?" "Luo" =
      "SHA en Social Health Authority, ma orit gi dhok yi mondo giko gi bedo mag dhok."
    ∧ (∀ text, luo_translations.lookup text = none →
        safe_translate ⟨none⟩ text "Luo" = text)
    ∧ safe_translate ⟨none⟩ "unknown phrase" "Luo" = "unknown phrase" :=
  safe_translate_luo_exact ⟨none⟩

/-! ## C8: messaging gateway -/

/-- C8: `safe_send_sms` and `safe_make_call` are total functions into
`Bool × String` (they never raise).  When Twilio is unconfigured,
`get_twilio_client` is `none` independently of every provider oracle, so
both return `(false, ...)` with the "not configured" info string and no
provider call is attempted; when a client is obtained, a provider
exception yields `(false, stringified error)` and success yields
`(true, provider sid)`. -/
theorem messaging_gateway_results (env : MsgEnv) (to_number body : String) :
    (twilio_configured env = false → get_twilio_client env = none)
    ∧ (twilio_configured env = false →
        safe_send_sms env to_number body =
          (false, "Twilio not configured or library missing.")
        ∧ safe_make_call env to_number body =
          (false, "Twilio not configured or library missing."))
    ∧ (∀ client sid, get_twilio_client env = some client →
        client.createMessage body (from_number env) to_number = .ok sid →
        safe_send_sms env to_number body = (true, sid))
    ∧ (∀ client e, get_twilio_client env = some client →
        client.createMessage body (from_number env) to_number = .error e →
        safe_send_sms env to_number body = (false, e))
    ∧ (∀ client sid, get_twilio_client env = some client →
        client.createCall ("<Response><Say>" ++ body ++ "</Say></Response>")
          (from_number env) to_number = .ok sid →
        safe_make_call env to_number body = (true, sid))
    ∧ (∀ client e, get_twilio_client env = some client →
        client.createCall ("<Response><Say>" ++ body ++ "</Say></Response>")
          (from_number env) to_number = .error e →
        safe_make_call env to_number body = (false, e)) := by
  refine ⟨?_, ?_, ?_, ?_, ?_, ?_⟩
  · intro h; simp [get_twilio_client, h]
  · intro h; constructor <;> simp [safe_send_sms, safe_make_call, get_twilio_client, h]
  · intro client sid hc hm; simp [safe_send_sms, hc, hm]
  · intro client e hc hm; simp [safe_send_sms, hc, hm]
  · intro client sid hc hm; simp [safe_make_call, hc, hm]
  · intro client e hc hm; simp [safe_make_call, hc, hm]

/-- An unconfigured messaging environment. -/
def envUnconfigured : MsgEnv :=
  ⟨⟨none, none, none, none⟩, false, none, "2024-01-01 00:00:00"⟩

/-- Closed instance of `messaging_gateway_results`. -/
theorem messaging_gateway_results_witness :
    (twilio_configured envUnconfigured = false →
      get_twilio_client envUnconfigured = none)
    ∧ (twilio_configured envUnconfigured = false →
        safe_send_sms envUnconfigured "+254700000000" "hi" =
          (false, "Twilio not configured or library missing.")
        ∧ safe_make_call envUnconfigured "+254700000000" "hi" =
          (false, "Twilio not configured or library missing."))
    ∧ (∀ client sid, get_twilio_client envUnconfigured = some client →
        client.createMessage "hi" (from_number envUnconfigured) "+254700000000" = .ok sid →
        safe_send_sms envUnconfigured "+254700000000" "hi" = (true, sid))
    ∧ (∀ client e, get_twilio_client envUnconfigured = some client →
        client.createMessage "hi" (from_number envUnconfigured) "+254700000000" = .error e →
        safe_send_sms envUnconfigured "+254700000000" "hi" = (false, e))
    ∧ (∀ client sid, get_twilio_client envUnconfigured = some client →
        client.createCall ("<Response><Say>" ++ "hi" ++ "</Say></Response>")
          (from_number envUnconfigured) "+254700000000" = .ok sid →
        safe_make_call envUnconfigured "+254700000000" "hi" = (true, sid))
    ∧ (∀ client e, get_twilio_client envUnconfigured = some client →
        client.createCall ("<Response><Say>" ++ "hi" ++ "</Say></Response>")
          (from_number envUnconfigured) "+254700000000" = .error e →
        safe_make_call envUnconfigured "+254700000000" "hi" = (false, e)) :=
  messaging_gateway_results envUnconfigured "+254700000000" "hi"

/-! ## C4: load guarantees -/

/-- C4 counterexample: when both parses fail (`unreadable`), the final
`except` path of `load_df_from_file` returns `pd.DataFrame()`, a table
with NO columns — the "exactly the expected columns" guarantee fails
there. -/
theorem load_unreadable_drops_columns :
    ¬ ((load_df_from_file .unreadable ["Name"]).cols = ["Name"]) := by
  decide

/-- C4 amended: `load_df_from_file` never raises (total function), and
for a nonempty expected column list it returns exactly those columns on
the absent-file path (with no rows), on the structured-parse path, and on
the raw-parse fallback; the unrecoverable-error fallback alone returns a
table with an empty column list. -/
theorem load_columns_exact (columns : List String) (h : columns ≠ []) :
    ((load_df_from_file .absent columns).cols = columns
      ∧ (load_df_from_file .absent columns).rows = [])
    ∧ (∀ df, (load_df_from_file (.structuredOk df) columns).cols = columns)
    ∧ (∀ recs, (load_df_from_file (.rawOnly recs) columns).cols = columns)
    ∧ (load_df_from_file .unreadable columns).cols = [] := by
  refine ⟨⟨?_, ?_⟩, ?_, ?_, ?_⟩ <;>
    simp [load_df_from_file, ensureAndSelect, h]

/-- Closed instance of `load_columns_exact`. -/
theorem load_columns_exact_witness :
    (["Name"] : List String) ≠ [] ∧
    (((load_df_from_file .absent ["Name"]).cols = ["Name"]
      ∧ (load_df_from_file .absent ["Name"]).rows = [])
    ∧ (∀ df, (load_df_from_file (.structuredOk df) ["Name"]).cols = ["Name"])
    ∧ (∀ recs, (load_df_from_file (.rawOnly recs) ["Name"]).cols = ["Name"])
    ∧ (load_df_from_file .unreadable ["Name"]).cols = []) :=
  ⟨by decide, load_columns_exact ["Name"] (by decide)⟩

/-! ## C5: save/load round trip -/

theorem lookupD_cons_self (k v : String) (r : Record) :
    lookupD ((k, v) :: r) k = v := by
  simp [lookupD, List.lookup]

theorem lookupD_cons_ne (k c v : String) (r : Record) (h : c ≠ k) :
    lookupD ((k, v) :: r) c = lookupD r c := by
  have hb : (c == k) = false := beq_eq_false_iff_ne.mpr h
  simp [lookupD, List.lookup, hb]

/-- Rebuilding a record from its own key list restores it. -/
theorem lookup_restore (r : Record) (cols : List String)
    (hk : r.map Prod.fst = cols) (hnd : cols.Nodup) :
    cols.map (fun c => (c, lookupD r c)) = r := by
  induction r generalizing cols with
  | nil => subst hk; rfl
  | cons kv r ih =>
      subst hk
      obtain ⟨k, v⟩ := kv
      simp only [List.map_cons, lookupD_cons_self]
      rw [List.map_congr_left (fun c hc =>
        congrArg (Prod.mk c) (lookupD_cons_ne k c v r
          (fun he => ((List.nodup_cons.mp hnd).1 (he ▸ hc))))),
        ih (r.map Prod.fst) rfl (List.nodup_cons.mp hnd).2]

theorem mem_addKeys_of_mem (r : Record) (acc : List String) (k : String)
    (h : k ∈ acc) : k ∈ addKeys acc r := by
  induction r generalizing acc with
  | nil => exact h
  | cons kv r ih =>
      show k ∈ addKeys (if kv.1 ∈ acc then acc else acc ++ [kv.1]) r
      split
      · exact ih acc h
      · exact ih (acc ++ [kv.1]) (List.mem_append_left _ h)

theorem mem_addKeys_of_key (r : Record) (acc : List String) (k : String)
    (h : k ∈ r.map Prod.fst) : k ∈ addKeys acc r := by
  induction r generalizing acc with
  | nil => simp at h
  | cons kv r ih =>
      show k ∈ addKeys (if kv.1 ∈ acc then acc else acc ++ [kv.1]) r
      rcases List.mem_cons.mp h with h1 | h2
      · by_cases hm : kv.1 ∈ acc
        · rw [if_pos hm]
          exact mem_addKeys_of_mem r acc k (h1 ▸ hm)
        · rw [if_neg hm]
          exact mem_addKeys_of_mem r _ k
            (List.mem_append_right _ (by rw [h1]; exact List.mem_singleton.mpr rfl))
      · split <;> exact ih _ h2

theorem addKeys_eq_of_subset (r : Record) (acc : List String)
    (h : ∀ k ∈ r.map Prod.fst, k ∈ acc) : addKeys acc r = acc := by
  induction r with
  | nil => rfl
  | cons kv r ih =>
      show addKeys (if kv.1 ∈ acc then acc else acc ++ [kv.1]) r = acc
      rw [if_pos (h kv.1 (List.mem_cons_self _ _))]
      exact ih (fun k hk => h k (List.mem_cons_of_mem _ hk))

theorem mem_foldl_addKeys_of_mem (recs : List Record) (acc : List String)
    (k : String) (h : k ∈ acc) : k ∈ recs.foldl addKeys acc := by
  induction recs generalizing acc with
  | nil => exact h
  | cons r recs ih => exact ih (addKeys acc r) (mem_addKeys_of_mem r acc k h)

/-- Any key of any record appears in the union of keys. -/
theorem mem_unionKeys (recs : List Record) (r : Record) (k : String)
    (hr : r ∈ recs) (hk : k ∈ r.map Prod.fst) : k ∈ unionKeys recs := by
  suffices hgen : ∀ acc, k ∈ recs.foldl addKeys acc from hgen []
  intro acc
  induction recs generalizing acc with
  | nil => simp at hr
  | cons r0 recs ih =>
      rcases List.mem_cons.mp hr with h1 | h2
      · subst h1
        exact mem_foldl_addKeys_of_mem recs _ k (mem_addKeys_of_key r acc k hk)
      · exact ih h2 _

theorem foldl_addKeys_const (recs : List Record) (acc : List String)
    (h : ∀ r ∈ recs, ∀ k ∈ r.map Prod.fst, k ∈ acc) :
    recs.foldl addKeys acc = acc := by
  induction recs with
  | nil => rfl
  | cons r recs ih =>
      show recs.foldl addKeys (addKeys acc r) = acc
      rw [addKeys_eq_of_subset r acc (h r (List.mem_cons_self _ _))]
      exact ih (fun r' hr' => h r' (List.mem_cons_of_mem _ hr'))

/-- A well-formed frame (distinct columns, every row carrying exactly the
frame's columns) serializes to exactly its row list. -/
theorem save_wf (T : DataFrame) (hnd : T.cols.Nodup)
    (hwf : ∀ r ∈ T.rows, r.map Prod.fst = T.cols) :
    save_df_to_file T = T.rows := by
  unfold save_df_to_file
  rw [List.map_congr_left (fun r hr => lookup_restore r T.cols (hwf r hr) hnd)]
  exact List.map_id T.rows

theorem load_structured_of_ne (df : DataFrame) (columns : List String)
    (h : columns ≠ []) :
    load_df_from_file (.structuredOk df) columns = ensureAndSelect df columns := by
  simp [load_df_from_file, h]

theorem load_structured_nil (df : DataFrame) :
    load_df_from_file (.structuredOk df) [] = df := by
  simp [load_df_from_file]

/-- Saving a well-formed frame and loading it back with the frame's own
columns as the expected columns reproduces the frame exactly. -/
theorem save_load_id (T : DataFrame) (hnd : T.cols.Nodup)
    (hwf : ∀ r ∈ T.rows, r.map Prod.fst = T.cols) :
    load_df_from_file (fileAfterSave T) T.cols = T := by
  have hsave := save_wf T hnd hwf
  obtain ⟨cols, rows⟩ := T
  simp only at hsave hwf
  simp only [fileAfterSave, hsave]
  by_cases hc : cols = []
  · subst hc
    rw [load_structured_nil]
    have hu : unionKeys rows = [] :=
      foldl_addKeys_const rows []
        (fun r hr k hk => by rw [hwf r hr] at hk; simp at hk)
    simp only [read_json_records, hu]
  · rw [load_structured_of_ne _ _ hc]
    show DataFrame.mk cols
        (rows.map (fun r =>
          cols.map (fun c => (c, if c ∈ unionKeys rows then lookupD r c else ""))))
      = ⟨cols, rows⟩
    have hrow : ∀ r ∈ rows,
        (cols.map (fun c => (c, if c ∈ unionKeys rows then lookupD r c else ""))) = r := by
      intro r hr
      rw [List.map_congr_left (fun c hcm => by
        rw [if_pos (mem_unionKeys rows r c hr (by rw [hwf r hr]; exact hcm))])]
      exact lookup_restore r cols (hwf r hr) hnd
    rw [List.map_congr_left hrow]
    simp

/-- C5: for every well-formed table `T` (distinct columns, rows keyed
exactly by them), saving `T` and re-loading with `T`'s columns as the
expected columns reproduces the same record sequence, and the
save-then-load cycle is idempotent. -/
theorem save_load_roundtrip (T : DataFrame) (hnd : T.cols.Nodup)
    (hwf : ∀ r ∈ T.rows, r.map Prod.fst = T.cols) :
    (load_df_from_file (fileAfterSave T) T.cols).rows = T.rows
    ∧ load_df_from_file
        (fileAfterSave (load_df_from_file (fileAfterSave T) T.cols)) T.cols
      = load_df_from_file (fileAfterSave T) T.cols := by
  have h1 := save_load_id T hnd hwf
  refine ⟨by rw [h1], ?_⟩
  rw [h1, h1]

/-- Closed instance of `save_load_roundtrip` on a two-column,
one-row partners-style table. -/
theorem save_load_roundtrip_witness :
    ((["Name", "Role"] : List String).Nodup
      ∧ ∀ r ∈ [[("Name", "Akinyi"), ("Role", "Volunteer")]],
          r.map Prod.fst = ["Name", "Role"])
    ∧ ((load_df_from_file
          (fileAfterSave ⟨["Name", "Role"], [[("Name", "Akinyi"), ("Role", "Volunteer")]]⟩)
          (DataFrame.mk ["Name", "Role"] [[("Name", "Akinyi"), ("Role", "Volunteer")]]).cols).rows
        = (DataFrame.mk ["Name", "Role"] [[("Name", "Akinyi"), ("Role", "Volunteer")]]).rows
      ∧ load_df_from_file
          (fileAfterSave (load_df_from_file
            (fileAfterSave ⟨["Name", "Role"], [[("Name", "Akinyi"), ("Role", "Volunteer")]]⟩)
            (DataFrame.mk ["Name", "Role"] [[("Name", "Akinyi"), ("Role", "Volunteer")]]).cols))
          (DataFrame.mk ["Name", "Role"] [[("Name", "Akinyi"), ("Role", "Volunteer")]]).cols
        = load_df_from_file
            (fileAfterSave ⟨["Name", "Role"], [[("Name", "Akinyi"), ("Role", "Volunteer")]]⟩)
            (DataFrame.mk ["Name", "Role"] [[("Name", "Akinyi"), ("Role", "Volunteer")]]).cols) :=
  ⟨⟨by decide, by decide⟩,
   save_load_roundtrip ⟨["Name", "Role"], [[("Name", "Akinyi"), ("Role", "Volunteer")]]⟩
     (by decide) (by decide)⟩

/-! ## Outbox drain characterization

The loop of `process_outbox` iterates over a frozen copy while mutating
the live table by index label.  When the labels are pairwise distinct
(which `ignore_index=True` concat and the default RangeIndex guarantee),
the whole sweep acts independently on each row: `entryStep` describes the
row's fate, `entryLog` its message-log contribution, `entryRes` its
result triple. -/

theorem setAttempts_of_not_mem (ob : Outbox) (i v : Nat)
    (h : i ∉ ob.map Prod.fst) : setAttempts ob i v = ob := by
  unfold setAttempts
  rw [List.map_congr_left (fun p hp => by
    rw [if_neg (fun he : p.1 = i => h (he ▸ List.mem_map_of_mem Prod.fst hp))])]
  exact List.map_id ob

theorem dropRow_of_not_mem (ob : Outbox) (i : Nat)
    (h : i ∉ ob.map Prod.fst) : dropRow ob i = ob := by
  unfold dropRow
  rw [List.filter_eq_self.mpr]
  intro p hp
  exact decide_eq_true (fun he : p.1 = i => h (he ▸ List.mem_map_of_mem Prod.fst hp))

theorem setAttempts_middle (pre post : Outbox) (i v : Nat) (e : OutboxEntry)
    (hpre : i ∉ pre.map Prod.fst) (hpost : i ∉ post.map Prod.fst) :
    setAttempts (pre ++ (i, e) :: post) i v
      = pre ++ (i, { e with attempts := v }) :: post := by
  unfold setAttempts
  rw [List.map_append, List.map_cons, if_pos rfl]
  rw [show pre.map _ = pre from setAttempts_of_not_mem pre i v hpre,
    show post.map _ = post from setAttempts_of_not_mem post i v hpost]

theorem dropRow_middle (pre post : Outbox) (i : Nat) (e : OutboxEntry)
    (hpre : i ∉ pre.map Prod.fst) (hpost : i ∉ post.map Prod.fst) :
    dropRow (pre ++ (i, e) :: post) i = pre ++ post := by
  unfold dropRow
  rw [List.filter_append, List.filter_cons]
  rw [show pre.filter _ = pre from dropRow_of_not_mem pre i hpre,
    show post.filter _ = post from dropRow_of_not_mem post i hpost]
  simp

theorem entryStep_fst (env : MsgEnv) (maxA : Nat) (p q : Nat × OutboxEntry)
    (h : entryStep env maxA p = some q) : q.1 = p.1 := by
  unfold entryStep at h
  split at h
  · cases h; rfl
  · split at h
    · cases h
    · cases h; rfl

theorem keys_filterMap_entryStep (env : MsgEnv) (maxA : Nat) (l : Outbox) :
    ((l.filterMap (entryStep env maxA)).map Prod.fst).Sublist (l.map Prod.fst) := by
  induction l with
  | nil => simp
  | cons p l ih =>
      rw [List.filterMap_cons]
      cases hs : entryStep env maxA p with
      | none => exact (List.map_cons _ _ _) ▸ ih.cons p.1
      | some q =>
          rw [List.map_cons, List.map_cons, entryStep_fst env maxA p q hs]
          exact ih.cons₂ p.1

/-- One drain pass over a frozen copy with pairwise-distinct labels,
started from a live table `pre ++ copy` whose extra rows `pre` carry
labels the copy never touches: every copy row is settled by `entryStep`,
contributes `entryLog` to the message log and `entryRes` to the results,
in copy order. -/
theorem processLoop_spec (env : MsgEnv) (maxA : Nat) (copy : Outbox) :
    ∀ (pre : Outbox) (logs : List LogEntry),
    (copy.map Prod.fst).Nodup →
    (∀ j ∈ pre.map Prod.fst, j ∉ copy.map Prod.fst) →
    processLoop env maxA copy ⟨pre ++ copy, logs⟩ =
      (⟨pre ++ copy.filterMap (entryStep env maxA),
        logs ++ copy.filterMap (entryLog env maxA)⟩,
       copy.map (entryRes env maxA)) := by
  induction copy with
  | nil =>
      intro pre logs _ _
      simp [processLoop]
  | cons p rest ih =>
      obtain ⟨i, e⟩ := p
      intro pre logs hnd hdisj
      have hnd2 : (i :: rest.map Prod.fst).Nodup := hnd
      have hi : i ∉ rest.map Prod.fst := (List.nodup_cons.mp hnd2).1
      have hnd' : (rest.map Prod.fst).Nodup := (List.nodup_cons.mp hnd2).2
      have hipre : i ∉ pre.map Prod.fst := fun hmem =>
        hdisj i hmem (List.mem_map_of_mem Prod.fst (List.mem_cons_self _ _))
      have hdisj' : ∀ j ∈ pre.map Prod.fst, j ∉ rest.map Prod.fst := fun j hj hr =>
        hdisj j hj (List.mem_cons_of_mem _ hr)
      have hdisj2 : ∀ e' : OutboxEntry,
          ∀ j ∈ (pre ++ [(i, e')]).map Prod.fst, j ∉ rest.map Prod.fst := by
        intro e' j hj
        rw [List.map_append] at hj
        rcases List.mem_append.mp hj with h1 | h2
        · exact hdisj' j h1
        · have hji : j = i := by simpa using h2
          exact hji ▸ hi
      by_cases hle : maxA ≤ e.attempts
      · have hstep : entryStep env maxA (i, e) = some (i, e) := by
          simp [entryStep, hle]
        have hlog : entryLog env maxA (i, e) = none := by
          simp [entryLog, hle]
        have hres : entryRes env maxA (i, e) = (i, false, "max attempts reached") := by
          simp [entryRes, hle]
        have hre : pre ++ (i, e) :: rest = (pre ++ [(i, e)]) ++ rest := by simp
        simp only [processLoop]
        rw [if_pos hle, hre, ih (pre ++ [(i, e)]) logs hnd' (hdisj2 e)]
        simp [hstep, hlog, hres, List.filterMap_cons]
      · have hset : setAttempts (pre ++ (i, e) :: rest) i (e.attempts + 1)
            = pre ++ (i, { e with attempts := e.attempts + 1 }) :: rest :=
          setAttempts_middle pre rest i (e.attempts + 1) e hipre hi
        by_cases hd : (dispatchEntry env e).1
        · have hde : dispatchEntry env e = (true, (dispatchEntry env e).2) :=
            Prod.ext_iff.mpr ⟨hd, rfl⟩
          have hstep : entryStep env maxA (i, e) = none := by
            simp [entryStep, hle, hd]
          have hlog : entryLog env maxA (i, e) = some (sentRow env e) := by
            simp [entryLog, hle, hd]
          have hres : entryRes env maxA (i, e) = (i, true, (dispatchEntry env e).2) := by
            show (if maxA ≤ e.attempts then (i, false, "max attempts reached")
                else (i, dispatchEntry env e)) = (i, true, (dispatchEntry env e).2)
            rw [if_neg hle]
            exact congrArg (Prod.mk i) hde
          simp only [processLoop]
          rw [if_neg hle, if_pos hd, hset, dropRow_middle pre rest i _ hipre hi,
            ih pre (logs ++ [sentRow env e]) hnd' hdisj']
          simp [hstep, hlog, hres, List.filterMap_cons]
        · have hdf : (dispatchEntry env e).1 = false := by
            simpa using hd
          have hde : dispatchEntry env e = (false, (dispatchEntry env e).2) :=
            Prod.ext_iff.mpr ⟨hdf, rfl⟩
          have hstep : entryStep env maxA (i, e)
              = some (i, { e with attempts := e.attempts + 1 }) := by
            simp [entryStep, hle, hdf]
          have hlog : entryLog env maxA (i, e) = none := by
            simp [entryLog, hle, hdf]
          have hres : entryRes env maxA (i, e) = (i, false, (dispatchEntry env e).2) := by
            show (if maxA ≤ e.attempts then (i, false, "max attempts reached")
                else (i, dispatchEntry env e)) = (i, false, (dispatchEntry env e).2)
            rw [if_neg hle]
            exact congrArg (Prod.mk i) hde
          simp only [processLoop]
          rw [if_neg hle, if_neg hd, hset,
            show pre ++ (i, { e with attempts := e.attempts + 1 }) :: rest
              = (pre ++ [(i, { e with attempts := e.attempts + 1 })]) ++ rest by simp,
            ih (pre ++ [(i, { e with attempts := e.attempts + 1 })]) logs hnd' (hdisj2 _)]
          simp [hstep, hlog, hres, List.filterMap_cons]

/-- One `process_outbox` call on a nonempty outbox with distinct labels:
new outbox, new log and result list are pointwise images of the old
outbox. -/
theorem process_outbox_spec (env : MsgEnv) (maxA : Nat) (st : OutboxState)
    (hnd : (st.outbox.map Prod.fst).Nodup) (hne : st.outbox ≠ []) :
    process_outbox env maxA st =
      (⟨st.outbox.filterMap (entryStep env maxA),
        st.logs ++ st.outbox.filterMap (entryLog env maxA)⟩,
       st.outbox.map (entryRes env maxA)) := by
  obtain ⟨ob, logs⟩ := st
  show (if ob = [] then _ else processLoop env maxA ob ⟨ob, logs⟩) = _
  rw [if_neg hne]
  exact processLoop_spec env maxA ob [] logs hnd (by simp)

/-- C1: in a drain, an outbox entry whose attempt count is below
`max_attempts` and whose dispatch succeeds contributes exactly one
message-log row — the `"Sent"` row built from it — is removed from the
outbox (its label no longer occurs), and records `(true, provider info)`
at its position of the result sequence. -/
theorem process_outbox_success (env : MsgEnv) (maxA : Nat) (pre post : Outbox)
    (i : Nat) (e : OutboxEntry) (logs : List LogEntry) (info : String)
    (hnd : ((pre ++ (i, e) :: post).map Prod.fst).Nodup)
    (ha : e.attempts < maxA)
    (hd : dispatchEntry env e = (true, info)) :
    (process_outbox env maxA ⟨pre ++ (i, e) :: post, logs⟩).1.logs
      = logs ++ pre.filterMap (entryLog env maxA)
          ++ sentRow env e :: post.filterMap (entryLog env maxA)
    ∧ (sentRow env e).status = "Sent"
    ∧ i ∉ ((process_outbox env maxA ⟨pre ++ (i, e) :: post, logs⟩).1.outbox.map Prod.fst)
    ∧ (process_outbox env maxA ⟨pre ++ (i, e) :: post, logs⟩).2
      = pre.map (entryRes env maxA)
        ++ (i, true, info) :: post.map (entryRes env maxA) := by
  have hne : (pre ++ (i, e) :: post) ≠ [] := by simp
  have hspec := process_outbox_spec env maxA ⟨pre ++ (i, e) :: post, logs⟩ hnd hne
  have hstep : entryStep env maxA (i, e) = none := by
    simp [entryStep, Nat.not_le.mpr ha, hd]
  have hlog : entryLog env maxA (i, e) = some (sentRow env e) := by
    simp [entryLog, Nat.not_le.mpr ha, hd]
  have hres : entryRes env maxA (i, e) = (i, true, info) := by
    simp [entryRes, Nat.not_le.mpr ha, hd]
  have hkeys : (pre ++ (i, e) :: post).map Prod.fst
      = pre.map Prod.fst ++ i :: post.map Prod.fst := by simp
  have hnd2 : (pre.map Prod.fst ++ i :: post.map Prod.fst).Nodup := hkeys ▸ hnd
  have hipre : i ∉ pre.map Prod.fst := fun h =>
    (List.nodup_append.mp hnd2).2.2 h (List.mem_cons_self _ _)
  have hipost : i ∉ post.map Prod.fst :=
    (List.nodup_cons.mp (List.nodup_append.mp hnd2).2.1).1
  refine ⟨?_, rfl, ?_, ?_⟩
  · rw [hspec]
    show logs ++ (pre ++ (i, e) :: post).filterMap (entryLog env maxA) = _
    rw [List.filterMap_append, List.filterMap_cons, hlog]
    simp [List.append_assoc]
  · rw [hspec]
    show i ∉ ((pre ++ (i, e) :: post).filterMap (entryStep env maxA)).map Prod.fst
    rw [List.filterMap_append, List.filterMap_cons, hstep, List.map_append]
    intro hmem
    rcases List.mem_append.mp hmem with h1 | h2
    · exact hipre ((keys_filterMap_entryStep env maxA pre).subset h1)
    · exact hipost ((keys_filterMap_entryStep env maxA post).subset h2)
  · rw [hspec]
    show (pre ++ (i, e) :: post).map (entryRes env maxA) = _
    rw [List.map_append, List.map_cons, hres]

def twilioOkClient : TwilioAccount :=
  ⟨fun _ _ _ => .ok "SM123", fun _ _ _ => .ok "CA123"⟩

def twilioFailClient : TwilioAccount :=
  ⟨fun _ _ _ => .error "network unreachable", fun _ _ _ => .error "network unreachable"⟩

def envAlwaysOk : MsgEnv :=
  ⟨⟨some ("AC1", "token", "+15550000000"), none, none, none⟩, true,
   some twilioOkClient, "2024-01-01 10:00:00"⟩

def envAlwaysFail : MsgEnv :=
  ⟨⟨some ("AC1", "token", "+15550000000"), none, none, none⟩, true,
   some twilioFailClient, "2024-01-01 10:00:00"⟩

def sampleEntry : OutboxEntry :=
  ⟨"+254700000001", "SHA registration info", "English", "2024-01-01 09:00:00", "sms", 0⟩

/-- Closed instance of `process_outbox_success`: one enqueued entry,
always-succeeding provider. -/
theorem process_outbox_success_witness :
    ((([] ++ (0, sampleEntry) :: []).map Prod.fst).Nodup
      ∧ sampleEntry.attempts < 3
      ∧ dispatchEntry envAlwaysOk sampleEntry = (true, "SM123"))
    ∧ ((process_outbox envAlwaysOk 3 ⟨[] ++ (0, sampleEntry) :: [], []⟩).1.logs
        = [] ++ List.filterMap (entryLog envAlwaysOk 3) []
            ++ sentRow envAlwaysOk sampleEntry :: List.filterMap (entryLog envAlwaysOk 3) []
      ∧ (sentRow envAlwaysOk sampleEntry).status = "Sent"
      ∧ 0 ∉ ((process_outbox envAlwaysOk 3 ⟨[] ++ (0, sampleEntry) :: [], []⟩).1.outbox.map Prod.fst)
      ∧ (process_outbox envAlwaysOk 3 ⟨[] ++ (0, sampleEntry) :: [], []⟩).2
        = List.map (entryRes envAlwaysOk 3) []
            ++ (0, true, "SM123") :: List.map (entryRes envAlwaysOk 3) []) :=
  ⟨⟨by decide, by decide, by decide⟩,
   process_outbox_success envAlwaysOk 3 [] [] 0 sampleEntry [] "SM123"
     (by decide) (by decide) (by decide)⟩

/-- C2: in a drain, an entry whose attempt count has reached
`max_attempts` records `(false, "max attempts reached")`, stays in the
outbox completely unchanged, contributes no log row, and no dispatch is
performed for it — its fate is the same under every messaging
environment. -/
theorem process_outbox_max_attempts (env : MsgEnv) (maxA : Nat) (pre post : Outbox)
    (i : Nat) (e : OutboxEntry) (logs : List LogEntry)
    (hnd : ((pre ++ (i, e) :: post).map Prod.fst).Nodup)
    (ha : e.attempts = maxA) :
    (process_outbox env maxA ⟨pre ++ (i, e) :: post, logs⟩).2
      = pre.map (entryRes env maxA)
        ++ (i, false, "max attempts reached") :: post.map (entryRes env maxA)
    ∧ (process_outbox env maxA ⟨pre ++ (i, e) :: post, logs⟩).1.outbox
      = pre.filterMap (entryStep env maxA)
        ++ (i, e) :: post.filterMap (entryStep env maxA)
    ∧ (i, e) ∈ (process_outbox env maxA ⟨pre ++ (i, e) :: post, logs⟩).1.outbox
    ∧ (process_outbox env maxA ⟨pre ++ (i, e) :: post, logs⟩).1.logs
      = logs ++ pre.filterMap (entryLog env maxA) ++ post.filterMap (entryLog env maxA)
    ∧ (∀ env' : MsgEnv, entryStep env' maxA (i, e) = some (i, e)
        ∧ entryLog env' maxA (i, e) = none
        ∧ entryRes env' maxA (i, e) = (i, false, "max attempts reached")) := by
  have hle : maxA ≤ e.attempts := ha ▸ Nat.le_refl _
  have hne : (pre ++ (i, e) :: post) ≠ [] := by simp
  have hspec := process_outbox_spec env maxA ⟨pre ++ (i, e) :: post, logs⟩ hnd hne
  have hstep : entryStep env maxA (i, e) = some (i, e) := by
    simp [entryStep, hle]
  have hlog : entryLog env maxA (i, e) = none := by
    simp [entryLog, hle]
  have hres : entryRes env maxA (i, e) = (i, false, "max attempts reached") := by
    simp [entryRes, hle]
  have hob : (process_outbox env maxA ⟨pre ++ (i, e) :: post, logs⟩).1.outbox
      = pre.filterMap (entryStep env maxA)
        ++ (i, e) :: post.filterMap (entryStep env maxA) := by
    rw [hspec]
    show (pre ++ (i, e) :: post).filterMap (entryStep env maxA) = _
    rw [List.filterMap_append, List.filterMap_cons, hstep]
  refine ⟨?_, hob, ?_, ?_, ?_⟩
  · rw [hspec]
    show (pre ++ (i, e) :: post).map (entryRes env maxA) = _
    rw [List.map_append, List.map_cons, hres]
  · rw [hob]
    exact List.mem_append_right _ (List.mem_cons_self _ _)
  · rw [hspec]
    show logs ++ (pre ++ (i, e) :: post).filterMap (entryLog env maxA) = _
    rw [List.filterMap_append, List.filterMap_cons, hlog]
    simp [List.append_assoc]
  · intro env'
    exact ⟨by simp [entryStep, hle], by simp [entryLog, hle], by simp [entryRes, hle]⟩

def stuckEntry : OutboxEntry :=
  ⟨"+254700000002", "SHA outreach reminder", "Swahili", "2024-01-01 08:00:00", "voice", 3⟩

/-- Closed instance of `process_outbox_max_attempts`. -/
theorem process_outbox_max_attempts_witness :
    ((([] ++ (0, stuckEntry) :: []).map Prod.fst).Nodup ∧ stuckEntry.attempts = 3)
    ∧ ((process_outbox envAlwaysOk 3 ⟨[] ++ (0, stuckEntry) :: [], []⟩).2
        = List.map (entryRes envAlwaysOk 3) []
            ++ (0, false, "max attempts reached") :: List.map (entryRes envAlwaysOk 3) []
      ∧ (process_outbox envAlwaysOk 3 ⟨[] ++ (0, stuckEntry) :: [], []⟩).1.outbox
        = List.filterMap (entryStep envAlwaysOk 3) []
            ++ (0, stuckEntry) :: List.filterMap (entryStep envAlwaysOk 3) []
      ∧ (0, stuckEntry) ∈ (process_outbox envAlwaysOk 3 ⟨[] ++ (0, stuckEntry) :: [], []⟩).1.outbox
      ∧ (process_outbox envAlwaysOk 3 ⟨[] ++ (0, stuckEntry) :: [], []⟩).1.logs
        = [] ++ List.filterMap (entryLog envAlwaysOk 3) []
            ++ List.filterMap (entryLog envAlwaysOk 3) []
      ∧ (∀ env' : MsgEnv, entryStep env' 3 (0, stuckEntry) = some (0, stuckEntry)
          ∧ entryLog env' 3 (0, stuckEntry) = none
          ∧ entryRes env' 3 (0, stuckEntry) = (0, false, "max attempts reached"))) :=
  ⟨⟨by decide, by decide⟩,
   process_outbox_max_attempts envAlwaysOk 3 [] [] 0 stuckEntry []
     (by decide) (by decide)⟩

/-- Dispatch looks only at a row's type, recipient and message, never at
its attempt count. -/
theorem dispatchEntry_attempts_irrel (env : MsgEnv) (e : OutboxEntry) (k : Nat) :
    dispatchEntry env { e with attempts := k } = dispatchEntry env e := by
  cases e
  rfl

/-- One failing drain on an entry below the attempt limit keeps the entry
with its count incremented, and keeps the labels distinct. -/
theorem drain_fail_mem (env : MsgEnv) (maxA : Nat) (st : OutboxState)
    (i : Nat) (e : OutboxEntry)
    (hnd : (st.outbox.map Prod.fst).Nodup) (hmem : (i, e) ∈ st.outbox)
    (ha : e.attempts < maxA) (hf : (dispatchEntry env e).1 = false) :
    (i, { e with attempts := e.attempts + 1 }) ∈ (process_outbox env maxA st).1.outbox
    ∧ ((process_outbox env maxA st).1.outbox.map Prod.fst).Nodup := by
  have hne : st.outbox ≠ [] := List.ne_nil_of_mem hmem
  have hspec := process_outbox_spec env maxA st hnd hne
  have hstep : entryStep env maxA (i, e)
      = some (i, { e with attempts := e.attempts + 1 }) := by
    simp [entryStep, Nat.not_le.mpr ha, hf]
  have hob : (process_outbox env maxA st).1.outbox
      = st.outbox.filterMap (entryStep env maxA) := by rw [hspec]
  constructor
  · rw [hob]
    exact List.mem_filterMap.mpr ⟨(i, e), hmem, hstep⟩
  · rw [hob]
    exact (keys_filterMap_entryStep env maxA st.outbox).nodup hnd

/-- C3: an entry that starts at attempt count 0 and fails dispatch in
each of `N` consecutive drains (`N < max_attempts`) is still in the
outbox after those `N` drains, with attempt count exactly `N`. -/
theorem process_outbox_fail_iter (env : MsgEnv) (maxA : Nat) (st : OutboxState)
    (i : Nat) (e : OutboxEntry) (N : Nat)
    (hnd : (st.outbox.map Prod.fst).Nodup) (hmem : (i, e) ∈ st.outbox)
    (h0 : e.attempts = 0) (hf : (dispatchEntry env e).1 = false) (hN : N < maxA) :
    (i, { e with attempts := N })
      ∈ ((fun s => (process_outbox env maxA s).1)^[N] st).outbox := by
  have main : ∀ n, n ≤ N →
      (i, { e with attempts := n })
        ∈ ((fun s => (process_outbox env maxA s).1)^[n] st).outbox
      ∧ ((((fun s => (process_outbox env maxA s).1)^[n] st).outbox.map Prod.fst)).Nodup := by
    intro n
    induction n with
    | zero =>
        intro _
        have he : { e with attempts := 0 } = e := by
          obtain ⟨r, m, l, d, t, a⟩ := e
          have ha0 : a = 0 := h0
          rw [ha0]
        rw [Function.iterate_zero_apply, he]
        exact ⟨hmem, hnd⟩
    | succ n ihn =>
        intro hle
        obtain ⟨hm, hnod⟩ := ihn (Nat.le_of_succ_le hle)
        have hlt : n < maxA := Nat.lt_trans (Nat.lt_of_succ_le hle) hN
        have hf' : (dispatchEntry env { e with attempts := n }).1 = false := by
          rw [dispatchEntry_attempts_irrel]
          exact hf
        have hstep := drain_fail_mem env maxA _ i { e with attempts := n }
          hnod hm hlt hf'
        rw [Function.iterate_succ_apply']
        exact ⟨hstep.1, hstep.2⟩
  exact (main N (Nat.le_refl N)).1

/-- Closed instance of `process_outbox_fail_iter`: two failing drains on
a fresh entry leave it queued with attempt count 2. -/
theorem process_outbox_fail_iter_witness :
    ((([(0, sampleEntry)].map Prod.fst).Nodup
      ∧ (0, sampleEntry) ∈ [(0, sampleEntry)]
      ∧ sampleEntry.attempts = 0
      ∧ (dispatchEntry envAlwaysFail sampleEntry).1 = false
      ∧ 2 < 3)
    ∧ (0, { sampleEntry with attempts := 2 })
        ∈ ((fun s => (process_outbox envAlwaysFail 3 s).1)^[2]
            ⟨[(0, sampleEntry)], []⟩).outbox) :=
  ⟨⟨by decide, by decide, by decide, by decide, by decide⟩,
   process_outbox_fail_iter envAlwaysFail 3 ⟨[(0, sampleEntry)], []⟩ 0 sampleEntry 2
     (by decide) (by decide) (by decide) (by decide) (by decide)⟩

/-! ## C9, C10: reminder status lifecycle -/

/-- C9: a reminder is created with Status "Pending" (the Add Reminder
handler appends exactly one such row); every page operation other than
Mark Completed leaves all existing reminders untouched (it can at most
append new Pending rows); and Mark Completed is the only operation that
changes a Status, rewriting it to "Completed" exactly on the matching
tasks. -/
theorem reminder_status_invariant (env : MsgEnv) (tenv : TransEnv)
    (st : AppState) (op : PageOp) :
    (∀ task due assignee,
      (applyOp env tenv st (.addReminder task due assignee)).reminders
        = st.reminders ++ [⟨task, due, assignee, "Pending"⟩])
    ∧ ((∀ t, op ≠ .markCompleted t) →
        ∃ tl, (applyOp env tenv st op).reminders = st.reminders ++ tl
          ∧ ∀ r ∈ tl, r.status = "Pending")
    ∧ (∀ t, (applyOp env tenv st (.markCompleted t)).reminders
        = st.reminders.map (fun r =>
            if r.task = t then { r with status := "Completed" } else r)) := by
  refine ⟨fun task due assignee => rfl, ?_, fun t => rfl⟩
  intro hne
  cases op with
  | addPartner n r l c cg => exact ⟨[], by simp [applyOp], by simp⟩
  | sendNow recipient text msgLang msgType =>
      refine ⟨[], ?_, by simp⟩
      show (sendNowStep env tenv st recipient text msgLang msgType).reminders
        = st.reminders ++ []
      simp [sendNowStep, add_to_outbox, apply_ite AppState.reminders]
  | submitFeedback n m l => exact ⟨[], by simp [applyOp], by simp⟩
  | addReminder task due assignee =>
      exact ⟨[⟨task, due, assignee, "Pending"⟩], rfl, by simp⟩
  | markCompleted t => exact absurd rfl (hne t)
  | processOutboxOp maxA => exact ⟨[], by simp [applyOp], by simp⟩
  | persistAll => exact ⟨[], by simp [applyOp], by simp⟩

def remindersSample : List Reminder :=
  [⟨"Visit ward", "2024-01-02", "Odhiambo", "Pending"⟩,
   ⟨"Visit ward", "2024-01-03", "Atieno", "Pending"⟩,
   ⟨"Call partner", "2024-01-04", "Akinyi", "Pending"⟩]

def stSample : AppState := ⟨[], [], [], remindersSample, []⟩

/-- Closed instance of `reminder_status_invariant` at the persist-all
operation. -/
theorem reminder_status_invariant_witness :
    (∀ task due assignee,
      (applyOp envAlwaysOk ⟨none⟩ stSample (.addReminder task due assignee)).reminders
        = stSample.reminders ++ [⟨task, due, assignee, "Pending"⟩])
    ∧ ((∀ t, PageOp.persistAll ≠ PageOp.markCompleted t) →
        ∃ tl, (applyOp envAlwaysOk ⟨none⟩ stSample .persistAll).reminders
            = stSample.reminders ++ tl
          ∧ ∀ r ∈ tl, r.status = "Pending")
    ∧ (∀ t, (applyOp envAlwaysOk ⟨none⟩ stSample (.markCompleted t)).reminders
        = stSample.reminders.map (fun r =>
            if r.task = t then { r with status := "Completed" } else r)) :=
  reminder_status_invariant envAlwaysOk ⟨none⟩ stSample .persistAll

/-- C10: the Mark Completed handler sets Status to "Completed" on every
reminder row whose Task equals the selected name — not only one row —
while preserving every other column of every row, the row count, and all
other tables. -/
theorem markCompleted_frame (env : MsgEnv) (tenv : TransEnv)
    (st : AppState) (t : String) :
    (applyOp env tenv st (.markCompleted t)).reminders
      = st.reminders.map (fun r =>
          { r with status := if r.task = t then "Completed" else r.status })
    ∧ (∀ r ∈ st.reminders, r.task = t →
        { r with status := "Completed" }
          ∈ (applyOp env tenv st (.markCompleted t)).reminders)
    ∧ (applyOp env tenv st (.markCompleted t)).reminders.length
      = st.reminders.length
    ∧ (applyOp env tenv st (.markCompleted t)).partners = st.partners
    ∧ (applyOp env tenv st (.markCompleted t)).message_logs = st.message_logs
    ∧ (applyOp env tenv st (.markCompleted t)).feedback = st.feedback
    ∧ (applyOp env tenv st (.markCompleted t)).outbox = st.outbox := by
  refine ⟨?_, ?_, ?_, rfl, rfl, rfl, rfl⟩
  · show st.reminders.map _ = st.reminders.map _
    apply List.map_congr_left
    intro r _
    by_cases h : r.task = t <;> simp [h]
  · intro r hr hrt
    show _ ∈ st.reminders.map _
    refine List.mem_map.mpr ⟨r, hr, ?_⟩
    rw [if_pos hrt]
  · show (st.reminders.map _).length = st.reminders.length
    exact List.length_map _ _

/-- Closed instance of `markCompleted_frame` on a table with two rows
sharing the selected task name. -/
theorem markCompleted_frame_witness :
    (applyOp envAlwaysOk ⟨none⟩ stSample (.markCompleted "Visit ward")).reminders
      = stSample.reminders.map (fun r =>
          { r with status := if r.task = "Visit ward" then "Completed" else r.status })
    ∧ (∀ r ∈ stSample.reminders, r.task = "Visit ward" →
        { r with status := "Completed" }
          ∈ (applyOp envAlwaysOk ⟨none⟩ stSample (.markCompleted "Visit ward")).reminders)
    ∧ (applyOp envAlwaysOk ⟨none⟩ stSample (.markCompleted "Visit ward")).reminders.length
      = stSample.reminders.length
    ∧ (applyOp envAlwaysOk ⟨none⟩ stSample (.markCompleted "Visit ward")).partners
      = stSample.partners
    ∧ (applyOp envAlwaysOk ⟨none⟩ stSample (.markCompleted "Visit ward")).message_logs
      = stSample.message_logs
    ∧ (applyOp envAlwaysOk ⟨none⟩ stSample (.markCompleted "Visit ward")).feedback
      = stSample.feedback
    ∧ (applyOp envAlwaysOk ⟨none⟩ stSample (.markCompleted "Visit ward")).outbox
      = stSample.outbox :=
  markCompleted_frame envAlwaysOk ⟨none⟩ stSample "Visit ward"

end SHAApp
